import Mathlib

/-!
Verification of the demosaicnet kernel-prediction core (demosaic/modules.py).

Tensors are modelled as shape-carrying index functions over the rationals.
The spatially varying kernel application `apply_kernels` is translated
statement by statement from the source, including the symmetric crop step,
the flat reinterpretation performed by `Tensor.view` on the permuted kernel
and the unfolded source tiles, and the runtime shape checks that `view` and
`unfold` perform (element-count equality, window size bounds).  The BayerKP
reconstruction pipeline (`BayerKP.forward`, `BayerKP.unroll`) is translated
with the externally supplied kernel predictor abstracted as an input tensor
and the softmax exponential abstracted as a parameter.
-/

namespace Demosaic

/-- A 4-D tensor of shape `(n0, n1, n2, n3)`: an index function together
with its shape.  Entries outside the shape bounds are irrelevant junk. -/
structure Tensor4 where
  n0 : Nat
  n1 : Nat
  n2 : Nat
  n3 : Nat
  data : Nat → Nat → Nat → Nat → ℚ

/-- A 3-D tensor (used for `gray_mosaic = mosaic.sum(1)`). -/
structure Tensor3 where
  n0 : Nat
  n1 : Nat
  n2 : Nat
  data : Nat → Nat → Nat → ℚ

/-- Python slicing `t[:, :, c:-c, c:-c]` for `c > 0`: drops `c` entries from
both ends of both spatial dimensions (length `max 0 (n - 2*c)`, which is the
truncated subtraction `n - 2*c` on `Nat`). -/
def sliceSpatial (t : Tensor4) (c : Nat) : Tensor4 :=
  { n0 := t.n0, n1 := t.n1, n2 := t.n2 - 2 * c, n3 := t.n3 - 2 * c,
    data := fun b ch i j => t.data b ch (i + c) (j + c) }

/-- The combined effect of the guarded symmetric crop on a tensor: shape
shrinks by `2*c` in both spatial dimensions and reads shift by `c`
(coincides with `sliceSpatial` for `c > 0` and the identity for `c = 0`). -/
def centerCrop (t : Tensor4) (c : Nat) : Tensor4 :=
  { n0 := t.n0, n1 := t.n1, n2 := t.n2 - 2 * c, n3 := t.n3 - 2 * c,
    data := fun b ch i j => t.data b ch (i + c) (j + c) }

/-- Lines 24-34 of modules.py: crop kernel and input so their sizes match.
`needed = kh + ksize - 1` is compared against the source height `h` only,
and the computed crop amount is applied to both spatial dimensions of
whichever tensor is cropped.  `needed` is computed over `Int` because
Python evaluates `kh + ksize - 1` without truncation. -/
def cropPair (kernel noisy : Tensor4) (ksize : Nat) : Tensor4 × Tensor4 :=
  let needed : Int := (kernel.n2 : Int) + (ksize : Int) - 1
  if needed > (noisy.n2 : Int) then
    let crop : Nat := ((needed - (noisy.n2 : Int)) / 2).toNat
    (if 0 < crop then sliceSpatial kernel crop else kernel, noisy)
  else
    let crop : Nat := (((noisy.n2 : Int) - needed) / 2).toNat
    (kernel, if 0 < crop then sliceSpatial noisy crop else noisy)

/-- Flat (contiguous) read of `kernel.permute(0, 2, 3, 1).contiguous()`:
the element at flat index `f` in lexicographic order over the permuted
shape `(n0, n2, n3, n1)`. -/
def kernelFlat (k : Tensor4) (f : Nat) : ℚ :=
  let c := f % k.n1
  let f1 := f / k.n1
  let j := f1 % k.n3
  let f2 := f1 / k.n3
  let i := f2 % k.n2
  let b := f2 / k.n2
  k.data b c i j

/-- Flat (contiguous) read of
`noisy.unfold(2, ks, 1).unfold(3, ks, 1).contiguous()`: the unfolded tensor
has shape `(n0, n1, n2-ks+1, n3-ks+1, ks, ks)` with entry
`(b, c, i, j, p, q) = noisy[b, c, i+p, j+q]`; `f` is a flat index in
lexicographic order over that shape. -/
def tilesFlat (s : Tensor4) (ks : Nat) (f : Nat) : ℚ :=
  let H2 := s.n2 - ks + 1
  let W2 := s.n3 - ks + 1
  let q := f % ks
  let f1 := f / ks
  let p := f1 % ks
  let f2 := f1 / ks
  let j := f2 % W2
  let f3 := f2 / W2
  let i := f3 % H2
  let f4 := f3 / H2
  let c := f4 % s.n1
  let b := f4 / s.n1
  s.data b c (i + p) (j + q)

/-- Largest `m ≤ fuel` with `m * m ≤ n` (0 when there is none). -/
def isqrtAux : Nat → Nat → Nat
  | 0, _ => 0
  | fuel + 1, n => if (fuel + 1) * (fuel + 1) ≤ n then fuel + 1 else isqrtAux fuel n

/-- Floor square root (`int(np.sqrt(n))` for exactly representable inputs):
the largest `m` with `m * m ≤ n`. -/
def isqrt (n : Nat) : Nat := isqrtAux n n

/-- Runtime shape errors raised by the tensor primitives used in
`apply_kernels`: `view` raises when the element counts disagree,
`unfold` raises when the window size exceeds the dimension. -/
inductive TensorError where
  | viewMismatch
  | unfoldTooLarge
deriving DecidableEq

/-- Lines 19-48 of modules.py, `apply_kernels(kernel, noisy_data)`.
`ksize = int(np.sqrt(kernel.shape[1]))` is the floor square root.
After the crop step, the kernel is permuted to `(0, 2, 3, 1)` and viewed as
`(bs, 1, kh, kw, ksize*ksize)` (where `bs` comes from `noisy_data` and
`kh, kw` from the cropped kernel) and the source is unfolded into `ks x ks`
tiles and viewed as `(bs, ci, kh, kw, ksize*ksize)`; each `view` succeeds
exactly when the element counts agree, and each `unfold` requires the
window to fit.  The result entry is the sum over the last axis of the
product, with both operands read through their flat reinterpretations. -/
def apply_kernels (kernel0 noisy0 : Tensor4) : Except TensorError Tensor4 :=
  let bs := noisy0.n0
  let ci := noisy0.n1
  let ksize := isqrt kernel0.n1
  let p := cropPair kernel0 noisy0 ksize
  let kernel := p.1
  let noisy := p.2
  let kh := kernel.n2
  let kw := kernel.n3
  if kernel.n0 * kernel.n1 * kernel.n2 * kernel.n3
      = bs * 1 * kh * kw * (ksize * ksize) then
    if ksize ≤ noisy.n2 ∧ ksize ≤ noisy.n3 then
      let H2 := noisy.n2 - ksize + 1
      let W2 := noisy.n3 - ksize + 1
      if bs * ci * H2 * W2 * (ksize * ksize)
          = bs * ci * kh * kw * (ksize * ksize) then
        Except.ok
          { n0 := bs, n1 := ci, n2 := kh, n3 := kw,
            data := fun b c i j =>
              ∑ t in Finset.range (ksize * ksize),
                kernelFlat kernel (((b * kh + i) * kw + j) * (ksize * ksize) + t) *
                  tilesFlat noisy ksize
                    ((((b * ci + c) * kh + i) * kw + j) * (ksize * ksize) + t) }
      else Except.error TensorError.viewMismatch
    else Except.error TensorError.unfoldTooLarge
  else Except.error TensorError.viewMismatch

/-- Whether an `apply_kernels`-style call returned a tensor. -/
def isOkT (r : Except TensorError Tensor4) : Bool :=
  match r with
  | Except.ok _ => true
  | Except.error _ => false

/-- Height field of a returned tensor (0 on error). -/
def okN2 (r : Except TensorError Tensor4) : Nat :=
  match r with
  | Except.ok t => t.n2
  | Except.error _ => 0

/-- Width field of a returned tensor (0 on error). -/
def okN3 (r : Except TensorError Tensor4) : Nat :=
  match r with
  | Except.ok t => t.n3
  | Except.error _ => 0

/-- Data entry of a returned tensor (0 on error). -/
def okDataAt (r : Except TensorError Tensor4) (b c i j : Nat) : ℚ :=
  match r with
  | Except.ok t => t.data b c i j
  | Except.error _ => 0

/-- Line 423 of modules.py: `gray_mosaic = mosaic.sum(1)`. -/
def graySum (m : Tensor4) : Tensor3 :=
  { n0 := m.n0, n1 := m.n2, n2 := m.n3,
    data := fun b y x => ∑ c in Finset.range m.n1, m.data b c y x }

/-- Lines 425-428 of modules.py:
`color_samples = gray_mosaic.unfold(2, 2, 2).unfold(1, 2, 2)` followed by
`.permute(0, 3, 4, 1, 2).contiguous().view(bs, 4, h, w)`.
The first unfold windows the width, the second the height, so after the
permute the channel index is `c = t*2 + s` with `t` the column offset and
`s` the row offset inside the 2x2 tile; plane `c` holds
`gray[b, 2i + c % 2, 2j + c / 2]`.  The window count of `unfold(d, 2, 2)`
is `(size - 2)/2 + 1` (requires `size ≥ 2`). -/
def colorSamples (g : Tensor3) : Tensor4 :=
  { n0 := g.n0, n1 := 4, n2 := (g.n1 - 2) / 2 + 1, n3 := (g.n2 - 2) / 2 + 1,
    data := fun b c i j => g.data b (2 * i + c % 2) (2 * j + c / 2) }

/-- Channel slice `t[:, a:a+len]`. -/
def sliceChannels (t : Tensor4) (a len : Nat) : Tensor4 :=
  { n0 := t.n0, n1 := len, n2 := t.n2, n3 := t.n3,
    data := fun b c i j => t.data b (a + c) i j }

/-- Softmax along dim 1, `F.softmax(t, 1)`, with the exponential abstracted as a parameter `e`
(the torch implementation instantiates `e` with `Real.exp`, possibly
shifted for stability; every property proved below holds for all `e`). -/
def softmaxDim1 (e : ℚ → ℚ) (t : Tensor4) : Tensor4 :=
  { n0 := t.n0, n1 := t.n1, n2 := t.n2, n3 := t.n3,
    data := fun b c i j =>
      e (t.data b c i j) / ∑ c2 in Finset.range t.n1, e (t.data b c2 i j) }

/-- Modelled from the spec: `crop_like(t, ref)` (imported from
`torchlib.image`, whose source is not part of this repository) symmetrically
center-crops `t` to the spatial extent of `ref`: "cropped to match the
inferred-estimate spatial extent via symmetric center-cropping". -/
def crop_like (t ref : Tensor4) : Tensor4 :=
  { n0 := t.n0, n1 := t.n1, n2 := ref.n2, n3 := ref.n3,
    data := fun b c i j =>
      t.data b c (i + (t.n2 - ref.n2) / 2) (j + (t.n3 - ref.n3) / 2) }

/-- Elementwise `+` of same-shaped tensors (`from_g0 + from_g1`). -/
def addT (x y : Tensor4) : Tensor4 :=
  { n0 := x.n0, n1 := x.n1, n2 := x.n2, n3 := x.n3,
    data := fun b c i j => x.data b c i j + y.data b c i j }

/-- Concatenation `th.cat([t0, t1, t2, t3], 1)` along the channel axis. -/
def cat4 (t0 t1 t2 t3 : Tensor4) : Tensor4 :=
  { n0 := t0.n0, n1 := t0.n1 + t1.n1 + t2.n1 + t3.n1, n2 := t0.n2, n3 := t0.n3,
    data := fun b c i j =>
      if c < t0.n1 then t0.data b c i j
      else if c < t0.n1 + t1.n1 then t1.data b (c - t0.n1) i j
      else if c < t0.n1 + t1.n1 + t2.n1 then t2.data b (c - t0.n1 - t1.n1) i j
      else t3.data b (c - t0.n1 - t1.n1 - t2.n1) i j }

/-- Concatenation `th.cat([t0, t1, t2], 1)` along the channel axis. -/
def cat3 (t0 t1 t2 : Tensor4) : Tensor4 :=
  { n0 := t0.n0, n1 := t0.n1 + t1.n1 + t2.n1, n2 := t0.n2, n3 := t0.n3,
    data := fun b c i j =>
      if c < t0.n1 then t0.data b c i j
      else if c < t0.n1 + t1.n1 then t1.data b (c - t0.n1) i j
      else t2.data b (c - t0.n1 - t1.n1) i j }

/-- Lines 415-419 of modules.py, `BayerKP.unroll`: reshapes a quarter-res
buffer `(bs, 4, h, w)` to full resolution `(bs, 1, 2h, 2w)` via
`buf.view(bs, 2, 2, h, w).permute(0, 3, 1, 4, 2).contiguous()
.view(bs, 1, h*2, w*2)`.  The split view decomposes the channel as
`c = 2*d1 + d2` and the merged view places `d1` as the row offset and `d2`
as the column offset, so the output entry at `(y, x)` reads channel
`2*(y % 2) + x % 2` of the buffer at `(y/2, x/2)`.  (Requires `n1 = 4`.) -/
def unroll (buf : Tensor4) : Tensor4 :=
  { n0 := buf.n0, n1 := 1, n2 := 2 * buf.n2, n3 := 2 * buf.n3,
    data := fun b _ y x => buf.data b (2 * (y % 2) + x % 2) (y / 2) (x / 2) }

/-- Lines 423-428: the four phase planes of the mosaic. -/
def bayerKP_planes (m : Tensor4) : Tensor4 :=
  colorSamples (graySum m)

/-- Line 434: `g0 = color_samples[:, 0:1]` (row even, column even). -/
def planeG0 (m : Tensor4) : Tensor4 := sliceChannels (bayerKP_planes m) 0 1

/-- Line 435: `b = color_samples[:, 1:2]` (row odd, column even). -/
def planeB (m : Tensor4) : Tensor4 := sliceChannels (bayerKP_planes m) 1 1

/-- Line 436: `r = color_samples[:, 2:3]` (row even, column odd). -/
def planeR (m : Tensor4) : Tensor4 := sliceChannels (bayerKP_planes m) 2 1

/-- Line 437: `g1 = color_samples[:, 3:4]` (row odd, column odd). -/
def planeG1 (m : Tensor4) : Tensor4 := sliceChannels (bayerKP_planes m) 3 1

/-- Lines 443-448: the `i`-th reconstructed red (`i < 3`), from kernel
channels `[i*ks², (i+1)*ks²)`, softmax-normalized, applied to the known
red plane.  `kernels` abstracts `self.kernels(color_samples)`. -/
def bayerKP_estR (ks : Nat) (e : ℚ → ℚ) (kernels m : Tensor4) (i : Nat) :
    Except TensorError Tensor4 :=
  apply_kernels (softmaxDim1 e (sliceChannels kernels (i * (ks * ks)) (ks * ks)))
    (planeR m)

/-- Lines 459-465: the `i`-th reconstructed blue, from kernel channels
`[(3+i)*ks², (4+i)*ks²)`. -/
def bayerKP_estB (ks : Nat) (e : ℚ → ℚ) (kernels m : Tensor4) (i : Nat) :
    Except TensorError Tensor4 :=
  apply_kernels
    (softmaxDim1 e (sliceChannels kernels ((3 + i) * (ks * ks)) (ks * ks)))
    (planeB m)

/-- Lines 477-487: the `i`-th reconstructed green (`i < 2`): a `2*ks²`
kernel slice starting at `6*ks² + i*2*ks²` is softmax-normalized jointly,
its two halves are applied to the two known green planes, and the results
are summed. -/
def bayerKP_estG (ks : Nat) (e : ℚ → ℚ) (kernels m : Tensor4) (i : Nat) :
    Except TensorError Tensor4 := do
  let k := softmaxDim1 e
    (sliceChannels kernels (6 * (ks * ks) + i * (2 * (ks * ks))) (2 * (ks * ks)))
  let from_g0 ← apply_kernels (sliceChannels k 0 (ks * ks)) (planeG0 m)
  let from_g1 ← apply_kernels (sliceChannels k (ks * ks) (ks * ks)) (planeG1 m)
  pure (addT from_g0 from_g1)

/-- Lines 443-457: the red 2x2 tile stack.  The list `reds` is reordered as
`[reds[1], reds[0], reds[2], reds[3]]`, i.e. the known red plane (cropped
against the first estimate) sits at tile index 1. -/
def bayerKP_redTile (ks : Nat) (e : ℚ → ℚ) (kernels m : Tensor4) :
    Except TensorError Tensor4 := do
  let e0 ← bayerKP_estR ks e kernels m 0
  let e1 ← bayerKP_estR ks e kernels m 1
  let e2 ← bayerKP_estR ks e kernels m 2
  let r0 := crop_like (planeR m) e0
  pure (cat4 e0 r0 e1 e2)

/-- Lines 459-474: the blue 2x2 tile stack.  The list `blues` is reordered
as `[blues[1], blues[2], blues[0], blues[3]]`, i.e. the known blue plane
sits at tile index 2. -/
def bayerKP_blueTile (ks : Nat) (e : ℚ → ℚ) (kernels m : Tensor4) :
    Except TensorError Tensor4 := do
  let e0 ← bayerKP_estB ks e kernels m 0
  let e1 ← bayerKP_estB ks e kernels m 1
  let e2 ← bayerKP_estB ks e kernels m 2
  let b0 := crop_like (planeB m) e0
  pure (cat4 e0 e1 b0 e2)

/-- Lines 477-497: the green 2x2 tile stack.  The list `greens` is
reordered as `[greens[0], greens[2], greens[3], greens[1]]`, i.e. the known
green planes sit at tile indices 0 and 3. -/
def bayerKP_greenTile (ks : Nat) (e : ℚ → ℚ) (kernels m : Tensor4) :
    Except TensorError Tensor4 := do
  let e0 ← bayerKP_estG ks e kernels m 0
  let e1 ← bayerKP_estG ks e kernels m 1
  let g0c := crop_like (planeG0 m) e0
  let g1c := crop_like (planeG1 m) e0
  pure (cat4 g0c e0 e1 g1c)

/-- Lines 421-501, `BayerKP.forward`, with the kernel-predictor network
output abstracted as the input tensor `kernels` (shape `(bs, 10*ks², kh, kw)`)
and the softmax exponential abstracted as `e`.  The three channel images
are assembled per tile and concatenated as `[red, green, blue]`. -/
def bayerKP_forward (ks : Nat) (e : ℚ → ℚ) (kernels m : Tensor4) :
    Except TensorError Tensor4 := do
  let rt ← bayerKP_redTile ks e kernels m
  let bt ← bayerKP_blueTile ks e kernels m
  let gt ← bayerKP_greenTile ks e kernels m
  pure (cat3 (unroll rt) (unroll gt) (unroll bt))

end Demosaic

namespace Demosaic

/-- The Python classes of modules.py that participate in the relevant
`super(...)` calls, with `pyObject` for Python's `object` root and
`nnModule` for `torch.nn.Module`.  `XtransNetwork` (line 116) derives from
`nn.Module` only, not from `BayerNetwork`. -/
inductive PyClass where
  | pyObject
  | nnModule
  | bayerNetwork
  | xtransNetwork
deriving DecidableEq

/-- The ancestor chain (method resolution order, including the class
itself) of each modelled class. -/
def ancestors : PyClass → List PyClass
  | PyClass.pyObject => [PyClass.pyObject]
  | PyClass.nnModule => [PyClass.nnModule, PyClass.pyObject]
  | PyClass.bayerNetwork =>
      [PyClass.bayerNetwork, PyClass.nnModule, PyClass.pyObject]
  | PyClass.xtransNetwork =>
      [PyClass.xtransNetwork, PyClass.nnModule, PyClass.pyObject]

/-- The Python exceptions raised by the modelled constructor paths. -/
inductive PyError where
  | typeError
  | valueError
deriving DecidableEq

/-- Model of `super(target, self).__init__()`: Python raises
`TypeError: super(type, obj): obj must be an instance or subtype of type`
unless the class of `self` is `target` itself or one of its subclasses. -/
def superInitCheck (target selfClass : PyClass) : Except PyError Unit :=
  if target ∈ ancestors selfClass then Except.ok ()
  else Except.error PyError.typeError

set_option linter.unusedVariables false in
/-- Lines 122-142 of modules.py, `XtransNetwork.__init__(depth, width)`:
line 123 invokes `super(BayerNetwork, self).__init__()` with `self` an
`XtransNetwork` instance.  The rest of the body (attribute assignments and
layer construction) raises nothing and is modelled as a no-op reached only
if the `super` call succeeds. -/
def XtransNetwork_init (depth width : Nat) : Except PyError Unit := do
  superInitCheck PyClass.bayerNetwork PyClass.xtransNetwork
  Except.ok ()

set_option linter.unusedVariables false in
/-- Lines 67-94 of modules.py, `BayerNetwork.__init__(depth, width)`: its
`super(BayerNetwork, self).__init__()` names its own class and succeeds;
the body raises nothing. -/
def BayerNetwork_init (depth width : Nat) : Except PyError Unit := do
  superInitCheck PyClass.bayerNetwork PyClass.bayerNetwork
  Except.ok ()

/-- The model names that `get` can look up (the two networks modelled
here). -/
inductive ModelName where
  | bayerNetworkName
  | xtransNetworkName
deriving DecidableEq

/-- Lines 51-56 of modules.py, `get(params)`: a missing model name raises
`ValueError("model has not been specified!")`; otherwise the constructor
looked up by name is invoked with the remaining parameters. -/
def get (name : Option ModelName) (depth width : Nat) : Except PyError Unit :=
  match name with
  | none => Except.error PyError.valueError
  | some ModelName.bayerNetworkName => BayerNetwork_init depth width
  | some ModelName.xtransNetworkName => XtransNetwork_init depth width

/-- The torch tensor operations invoked by `apply_kernels`,
`BayerKP.unroll` and `BayerKP.forward`, together with the in-place
operations appearing elsewhere in modules.py (for contrast).  An operation
is classified as writing in place exactly when torch documents it as
mutating existing storage: trailing-underscore methods, `inplace=True`
activations, and slice assignment. -/
inductive TorchOp where
  | sliceView
  | permuteView
  | contiguousCopy
  | reshapeView
  | unfoldView
  | sumReduce
  | mulBroadcast
  | addElementwise
  | catCopy
  | softmaxFunctional
  | moduleForward
  | indexAssign
  | subAssign
  | addAssign
  | resizeInPlace
  | zeroInPlace
  | fillInPlace
  | reluInPlace
deriving DecidableEq

/-- Whether the operation writes into an existing tensor's storage. -/
def writesInPlace : TorchOp → Bool
  | TorchOp.indexAssign => true
  | TorchOp.subAssign => true
  | TorchOp.addAssign => true
  | TorchOp.resizeInPlace => true
  | TorchOp.zeroInPlace => true
  | TorchOp.fillInPlace => true
  | TorchOp.reluInPlace => true
  | _ => false

/-- The operation trace of `apply_kernels` (lines 19-48): the two guarded
slices (lines 29 and 34; at most one executes, both are listed), the
kernel permute / contiguous / view (lines 38-39), the two unfolds and the
contiguous view of the tiles (lines 42-43), the broadcast product and the
reduction (line 46). -/
def applyKernelsOps : List TorchOp :=
  [TorchOp.sliceView, TorchOp.sliceView,
   TorchOp.permuteView, TorchOp.contiguousCopy, TorchOp.reshapeView,
   TorchOp.unfoldView, TorchOp.unfoldView, TorchOp.contiguousCopy,
   TorchOp.reshapeView, TorchOp.mulBroadcast, TorchOp.sumReduce]

/-- The operation trace of `BayerKP.unroll` (lines 415-419):
view, permute, contiguous, view. -/
def unrollOps : List TorchOp :=
  [TorchOp.reshapeView, TorchOp.permuteView, TorchOp.contiguousCopy,
   TorchOp.reshapeView]

/-- One red or blue reconstruction step (lines 445-448 / 462-465): kernel
bank slice, softmax, and one `apply_kernels` call. -/
def rbEstOps : List TorchOp :=
  [TorchOp.sliceView, TorchOp.softmaxFunctional] ++ applyKernelsOps

/-- One green reconstruction step (lines 479-487): kernel bank slice,
joint softmax, two half slices each feeding an `apply_kernels` call, and
the elementwise sum of the two estimates. -/
def greenEstOps : List TorchOp :=
  [TorchOp.sliceView, TorchOp.softmaxFunctional, TorchOp.sliceView]
    ++ applyKernelsOps ++ [TorchOp.sliceView] ++ applyKernelsOps
    ++ [TorchOp.addElementwise]

/-- The operation trace of `BayerKP.forward` (lines 421-501) in program
order: the channel sum (line 423), the mosaic unpack (lines 425-428), the
kernel-predictor call (line 430), the four plane slices (lines 434-437),
three red estimates with the known-red crop, cat and unroll (443-457),
three blue estimates with crop, cat and unroll (459-474), two green
estimates with the two crops, cat and unroll (477-497), and the final cat
(line 499).  `crop_like` is tensor slicing. -/
def bayerKPForwardOps : List TorchOp :=
  [TorchOp.sumReduce,
   TorchOp.unfoldView, TorchOp.unfoldView,
   TorchOp.permuteView, TorchOp.contiguousCopy, TorchOp.reshapeView,
   TorchOp.moduleForward,
   TorchOp.sliceView, TorchOp.sliceView, TorchOp.sliceView,
   TorchOp.sliceView]
  ++ rbEstOps ++ rbEstOps ++ rbEstOps
  ++ [TorchOp.sliceView] ++ [TorchOp.catCopy] ++ unrollOps
  ++ rbEstOps ++ rbEstOps ++ rbEstOps
  ++ [TorchOp.sliceView] ++ [TorchOp.catCopy] ++ unrollOps
  ++ greenEstOps ++ greenEstOps
  ++ [TorchOp.sliceView, TorchOp.sliceView] ++ [TorchOp.catCopy] ++ unrollOps
  ++ [TorchOp.catCopy]

/-- Decoding the last coordinate of a mixed-radix encoding. -/
theorem enc_mod (a b n : Nat) (hb : b < n) : (a * n + b) % n = b := by
  rw [Nat.mul_comm, Nat.mul_add_mod, Nat.mod_eq_of_lt hb]

/-- Stripping the last coordinate of a mixed-radix encoding. -/
theorem enc_div (a b n : Nat) (hb : b < n) : (a * n + b) / n = a := by
  rw [Nat.mul_comm, Nat.mul_add_div (Nat.lt_of_le_of_lt (Nat.zero_le _) hb),
    Nat.div_eq_of_lt hb, Nat.add_zero]

/-- Reading the contiguous permuted kernel at an in-range encoded index
recovers the original kernel entry with the channel moved last. -/
theorem kernelFlat_encode (k : Tensor4) (b i j t : Nat)
    (hi : i < k.n2) (hj : j < k.n3) (ht : t < k.n1) :
    kernelFlat k (((b * k.n2 + i) * k.n3 + j) * k.n1 + t) = k.data b t i j := by
  simp only [kernelFlat]
  rw [enc_mod _ _ _ ht, enc_div _ _ _ ht, enc_mod _ _ _ hj, enc_div _ _ _ hj,
    enc_mod _ _ _ hi, enc_div _ _ _ hi]

/-- Reading the contiguous unfolded-tiles buffer at an in-range encoded
index (over the target view shape, whose spatial extents must equal the
window counts) recovers the source entry at the window offset. -/
theorem tilesFlat_encode (s : Tensor4) (ks b c i j t : Nat)
    (hc : c < s.n1) (hi : i < s.n2 - ks + 1) (hj : j < s.n3 - ks + 1)
    (ht : t < ks * ks) :
    tilesFlat s ks
      ((((b * s.n1 + c) * (s.n2 - ks + 1) + i) * (s.n3 - ks + 1) + j)
        * (ks * ks) + t)
      = s.data b c (i + t / ks) (j + t % ks) := by
  have hks : 0 < ks := by
    rcases Nat.eq_zero_or_pos ks with h0 | h0
    · subst h0; simp at ht
    · exact h0
  have hdiv : t / ks < ks := (Nat.div_lt_iff_lt_mul hks).2 ht
  simp only [tilesFlat]
  have e1 : (((b * s.n1 + c) * (s.n2 - ks + 1) + i) * (s.n3 - ks + 1) + j)
      * (ks * ks) + t
      = ks * ((((b * s.n1 + c) * (s.n2 - ks + 1) + i) * (s.n3 - ks + 1) + j)
          * ks) + t := by ring
  rw [e1, Nat.mul_add_mod, Nat.mul_add_div hks,
    enc_mod _ _ _ hdiv, enc_div _ _ _ hdiv,
    enc_mod _ _ _ hj, enc_div _ _ _ hj, enc_mod _ _ _ hi, enc_div _ _ _ hi,
    enc_mod _ _ _ hc, enc_div _ _ _ hc]

/-- The guarded crop (`if crop > 0`) equals the unguarded slice form. -/
theorem slice_opt (t : Tensor4) (c : Nat) :
    (if 0 < c then sliceSpatial t c else t) = centerCrop t c := by
  cases c with
  | zero => simp [centerCrop]
  | succ n => rw [if_pos (Nat.succ_pos n)]; rfl

/-- In the regime where the source is at least as large as the kernel
footprint and the size difference is even, the crop step leaves the kernel
unchanged and center-crops the source by half the difference. -/
theorem cropPair_even (k s : Tensor4) (ks c : Nat)
    (hh : s.n2 = k.n2 + ks - 1 + 2 * c) (hks : 1 ≤ ks) (hkh : 1 ≤ k.n2) :
    cropPair k s ks = (k, centerCrop s c) := by
  have hcrop : (((s.n2 : Int) - ((k.n2 : Int) + (ks : Int) - 1)) / 2).toNat
      = c := by
    have h2 : (s.n2 : Int) - ((k.n2 : Int) + (ks : Int) - 1) = 2 * c := by
      omega
    rw [h2]; omega
  simp only [cropPair]
  rw [if_neg (by omega), hcrop, slice_opt]

end Demosaic

namespace Demosaic

/-- Variant of `kernelFlat_encode` with the channel radix given by an equation (used
when the kernel depth is written as `K*K`). -/
theorem kernelFlat_encodeN (k : Tensor4) (b i j t N : Nat) (hN : k.n1 = N)
    (hi : i < k.n2) (hj : j < k.n3) (ht : t < N) :
    kernelFlat k (((b * k.n2 + i) * k.n3 + j) * N + t) = k.data b t i j := by
  subst hN; exact kernelFlat_encode k b i j t hi hj ht

/-- Variant of `tilesFlat_encode` with the channel count and window counts given by
equations (used when they are written in terms of the kernel's shape). -/
theorem tilesFlat_encodeN (s : Tensor4) (ks b c i j t N1 H W : Nat)
    (h1 : s.n1 = N1) (hH : s.n2 - ks + 1 = H) (hW : s.n3 - ks + 1 = W)
    (hc : c < N1) (hi : i < H) (hj : j < W) (ht : t < ks * ks) :
    tilesFlat s ks ((((b * N1 + c) * H + i) * W + j) * (ks * ks) + t)
      = s.data b c (i + t / ks) (j + t % ks) := by
  subst h1 hH hW; exact tilesFlat_encode s ks b c i j t hc hi hj ht

/-- The helper `isqrtAux` returns `K` whenever `K` is within the fuel budget and is
the exact floor square root of `n`. -/
theorem isqrtAux_eq (n K : Nat) : ∀ fuel, K ≤ fuel → n < (K + 1) * (K + 1) →
    K * K ≤ n → isqrtAux fuel n = K := by
  intro fuel
  induction fuel with
  | zero =>
    intro hK _ _
    simp only [isqrtAux]
    omega
  | succ f ih =>
    intro hK hup hlow
    rcases Nat.lt_or_ge K (f + 1) with hlt | hge
    · have hcond : ¬((f + 1) * (f + 1) ≤ n) := by
        have : (K + 1) * (K + 1) ≤ (f + 1) * (f + 1) :=
          Nat.mul_le_mul (by omega) (by omega)
        omega
      simp only [isqrtAux, if_neg hcond]
      exact ih (by omega) hup hlow
    · have hKf : K = f + 1 := by omega
      subst hKf
      simp only [isqrtAux, if_pos hlow]

/-- The floor square root of a perfect square. -/
theorem isqrt_sq (K : Nat) : isqrt (K * K) = K := by
  unfold isqrt
  exact isqrtAux_eq (K * K) K (K * K) (by nlinarith) (by nlinarith) (le_refl _)

/-- Success specification of `apply_kernels`: when the kernel depth is the
perfect square `K*K`, the batch sizes agree, and the source exceeds the
kernel footprint `kh + K - 1` by the even margin `2*c` in both spatial
dimensions, the call succeeds and every in-range output entry is the
kernel-weighted sum over the `K x K` source window anchored at the output
position shifted by the crop offset `c`. -/
theorem apply_kernels_spec (k s : Tensor4) (K c : Nat)
    (hb : k.n0 = s.n0) (hk1 : k.n1 = K * K) (hK : 1 ≤ K)
    (hkh : 1 ≤ k.n2) (hkw : 1 ≤ k.n3)
    (hh : s.n2 = k.n2 + K - 1 + 2 * c) (hw : s.n3 = k.n3 + K - 1 + 2 * c) :
    ∃ out, apply_kernels k s = Except.ok out ∧
      out.n0 = s.n0 ∧ out.n1 = s.n1 ∧ out.n2 = k.n2 ∧ out.n3 = k.n3 ∧
      ∀ b ch i j, ch < s.n1 → i < k.n2 → j < k.n3 →
        out.data b ch i j =
          ∑ q in Finset.range (K * K),
            k.data b q i j * s.data b ch (i + c + q / K) (j + c + q % K) := by
  have hsq : isqrt k.n1 = K := by rw [hk1, isqrt_sq]
  simp only [apply_kernels, hsq, cropPair_even k s K c hh hK hkh]
  simp only [centerCrop]
  rw [if_pos (by rw [hb, hk1]; ring)]
  rw [if_pos (⟨by omega, by omega⟩ : K ≤ s.n2 - 2 * c ∧ K ≤ s.n3 - 2 * c)]
  rw [if_pos (by
    have e2 : s.n2 - 2 * c - K + 1 = k.n2 := by omega
    have e3 : s.n3 - 2 * c - K + 1 = k.n3 := by omega
    rw [e2, e3])]
  refine ⟨_, rfl, rfl, rfl, rfl, rfl, ?_⟩
  intro b ch i j hch hi hj
  dsimp only
  refine Finset.sum_congr rfl ?_
  intro q hq
  rw [Finset.mem_range] at hq
  rw [kernelFlat_encodeN k b i j q (K * K) hk1 hi hj hq]
  rw [tilesFlat_encodeN
    { n0 := s.n0, n1 := s.n1, n2 := s.n2 - 2 * c, n3 := s.n3 - 2 * c,
      data := fun b2 c2 i2 j2 => s.data b2 c2 (i2 + c) (j2 + c) }
    K b ch i j q s.n1 k.n2 k.n3 rfl (by simp only; omega) (by simp only; omega)
    hch hi hj hq]
  simp only
  have e4 : i + q / K + c = i + c + q / K := by omega
  have e5 : j + q % K + c = j + c + q % K := by omega
  rw [e4, e5]

end Demosaic

namespace Demosaic

/-- The index range of a nonempty kernel window. -/
theorem range_sq_nonempty (K : Nat) (hK : 1 ≤ K) :
    (Finset.range (K * K)).Nonempty :=
  Finset.nonempty_range_iff.mpr (Nat.mul_ne_zero (by omega) (by omega))

/-- C1: for every kernel tensor of shape `(bs, K*K, kh, kw)` and source
tensor of shape `(bs, C, h, w)` that are spatially compatible after the
symmetric crop step (`kh + K - 1 = h`, `kw + K - 1 = w`, so the crop is a
no-op), `apply_kernels` succeeds and returns a tensor of shape
`(bs, C, kh, kw)` whose entry at `(b, ch, i, j)` is the exact weighted sum
over the `K x K` source neighborhood anchored at `(i, j)`:
`sum over q < K*K of kernel[b, q, i, j] * source[b, ch, i + q / K, j + q % K]`. -/
theorem C1_apply_kernels_weighted_sum (k s : Tensor4) (K : Nat)
    (hb : k.n0 = s.n0) (hk1 : k.n1 = K * K) (hK : 1 ≤ K)
    (hkh : 1 ≤ k.n2) (hkw : 1 ≤ k.n3)
    (hh : s.n2 = k.n2 + K - 1) (hw : s.n3 = k.n3 + K - 1) :
    ∃ out, apply_kernels k s = Except.ok out ∧
      out.n0 = s.n0 ∧ out.n1 = s.n1 ∧ out.n2 = k.n2 ∧ out.n3 = k.n3 ∧
      ∀ b ch i j, ch < s.n1 → i < k.n2 → j < k.n3 →
        out.data b ch i j =
          ∑ q in Finset.range (K * K),
            k.data b q i j * s.data b ch (i + q / K) (j + q % K) := by
  obtain ⟨out, h1, h2, h3, h4, h5, h6⟩ :=
    apply_kernels_spec k s K 0 hb hk1 hK hkh hkw (by omega) (by omega)
  refine ⟨out, h1, h2, h3, h4, h5, ?_⟩
  intro b ch i j hch hi hj
  rw [h6 b ch i j hch hi hj]
  simp only [Nat.add_zero]

/-- Witness for C1: a 1x1 kernel of weight 2 over a 1x1 source of value 5
returns the single product 10. -/
theorem C1_witness :
    ∃ out, apply_kernels (Tensor4.mk 1 1 1 1 (fun _ _ _ _ => 2))
        (Tensor4.mk 1 1 1 1 (fun _ _ _ _ => 5)) = Except.ok out ∧
      out.data 0 0 0 0 = 10 := by
  obtain ⟨out, h1, _, _, _, _, h6⟩ :=
    C1_apply_kernels_weighted_sum (Tensor4.mk 1 1 1 1 (fun _ _ _ _ => 2))
      (Tensor4.mk 1 1 1 1 (fun _ _ _ _ => 5)) 1 rfl rfl (by decide) (by decide)
      (by decide) rfl rfl
  refine ⟨out, h1, ?_⟩
  rw [h6 0 0 0 0 (by decide) (by decide) (by decide)]
  norm_num

/-- C2: when the kernel weights along the `K*K` axis are non-negative and
sum to 1 at every in-range coordinate, every in-range output value of
`apply_kernels` lies within the closed interval `[min, max]` of the
corresponding `K x K` source-neighborhood values for that batch and
channel (convex-combination bound).  Stated for every compatible pair,
including a nonzero even crop margin `2*c`. -/
theorem C2_apply_kernels_convex_bound (k s : Tensor4) (K c : Nat)
    (hb : k.n0 = s.n0) (hk1 : k.n1 = K * K) (hK : 1 ≤ K)
    (hkh : 1 ≤ k.n2) (hkw : 1 ≤ k.n3)
    (hh : s.n2 = k.n2 + K - 1 + 2 * c) (hw : s.n3 = k.n3 + K - 1 + 2 * c)
    (hnn : ∀ b q i j, q < K * K → i < k.n2 → j < k.n3 → 0 ≤ k.data b q i j)
    (hsum : ∀ b i j, i < k.n2 → j < k.n3 →
      (∑ q in Finset.range (K * K), k.data b q i j) = 1) :
    ∃ out, apply_kernels k s = Except.ok out ∧
      ∀ b ch i j, ch < s.n1 → i < k.n2 → j < k.n3 →
        Finset.inf' (Finset.range (K * K)) (range_sq_nonempty K hK)
            (fun q => s.data b ch (i + c + q / K) (j + c + q % K))
          ≤ out.data b ch i j ∧
        out.data b ch i j ≤
          Finset.sup' (Finset.range (K * K)) (range_sq_nonempty K hK)
            (fun q => s.data b ch (i + c + q / K) (j + c + q % K)) := by
  obtain ⟨out, h1, _, _, _, _, h6⟩ :=
    apply_kernels_spec k s K c hb hk1 hK hkh hkw hh hw
  refine ⟨out, h1, ?_⟩
  intro b ch i j hch hi hj
  rw [h6 b ch i j hch hi hj]
  constructor
  · have hle : ∀ q ∈ Finset.range (K * K),
        k.data b q i j *
            Finset.inf' (Finset.range (K * K)) (range_sq_nonempty K hK)
              (fun q2 => s.data b ch (i + c + q2 / K) (j + c + q2 % K))
          ≤ k.data b q i j * s.data b ch (i + c + q / K) (j + c + q % K) := by
      intro q hq
      rw [Finset.mem_range] at hq
      exact mul_le_mul_of_nonneg_left
        (Finset.inf'_le (fun q2 => s.data b ch (i + c + q2 / K) (j + c + q2 % K))
          (Finset.mem_range.mpr hq)) (hnn b q i j hq hi hj)
    have hlow := Finset.sum_le_sum hle
    rw [← Finset.sum_mul, hsum b i j hi hj, one_mul] at hlow
    exact hlow
  · have hle : ∀ q ∈ Finset.range (K * K),
        k.data b q i j * s.data b ch (i + c + q / K) (j + c + q % K)
          ≤ k.data b q i j *
            Finset.sup' (Finset.range (K * K)) (range_sq_nonempty K hK)
              (fun q2 => s.data b ch (i + c + q2 / K) (j + c + q2 % K)) := by
      intro q hq
      rw [Finset.mem_range] at hq
      exact mul_le_mul_of_nonneg_left
        (Finset.le_sup' (fun q2 => s.data b ch (i + c + q2 / K) (j + c + q2 % K))
          (Finset.mem_range.mpr hq)) (hnn b q i j hq hi hj)
    have hup := Finset.sum_le_sum hle
    rw [← Finset.sum_mul, hsum b i j hi hj, one_mul] at hup
    exact hup

/-- Witness for C2: the identity 1x1 kernel over a 1x1 source of value 7
produces 7, which is bounded by the neighborhood min and max (both 7). -/
theorem C2_witness :
    ∃ out, apply_kernels (Tensor4.mk 1 1 1 1 (fun _ _ _ _ => 1))
        (Tensor4.mk 1 1 1 1 (fun _ _ _ _ => 7)) = Except.ok out ∧
      Finset.inf' (Finset.range (1 * 1)) (range_sq_nonempty 1 (by decide))
          (fun _ => (7 : ℚ)) ≤ out.data 0 0 0 0 ∧
      out.data 0 0 0 0 ≤
        Finset.sup' (Finset.range (1 * 1)) (range_sq_nonempty 1 (by decide))
          (fun _ => (7 : ℚ)) := by
  obtain ⟨out, h1, h2⟩ :=
    C2_apply_kernels_convex_bound (Tensor4.mk 1 1 1 1 (fun _ _ _ _ => 1))
      (Tensor4.mk 1 1 1 1 (fun _ _ _ _ => 7)) 1 0 rfl rfl (by decide)
      (by decide) (by decide) rfl rfl
      (fun b q i j _ _ _ => by norm_num)
      (fun b i j _ _ => by simp)
  obtain ⟨hlow, hup⟩ := h2 0 0 0 0 (by decide) (by decide) (by decide)
  exact ⟨out, h1, hlow, hup⟩

end Demosaic

namespace Demosaic

/-- The crop step never enlarges the source's spatial extent. -/
theorem cropPair_snd_dims (k s : Tensor4) (ks : Nat) :
    (cropPair k s ks).2.n2 ≤ s.n2 ∧ (cropPair k s ks).2.n3 ≤ s.n3 := by
  simp only [cropPair]
  split
  · exact ⟨le_refl _, le_refl _⟩
  · rw [slice_opt]
    simp only [centerCrop]
    omega

/-- When the kernel footprint fits inside the source, the kernel is left
uncropped. -/
theorem cropPair_fst_of_le (k s : Tensor4) (ks : Nat)
    (h : (k.n2 : Int) + (ks : Int) - 1 ≤ (s.n2 : Int)) :
    (cropPair k s ks).1 = k := by
  simp only [cropPair]
  rw [if_neg (by omega)]

/-- Crop-step value in the kernel-crop branch (`needed > h`). -/
theorem cropPair_gt (k s : Tensor4) (ks cr : Nat)
    (hgt : (s.n2 : Int) < (k.n2 : Int) + (ks : Int) - 1)
    (hcr : cr = (((k.n2 : Int) + (ks : Int) - 1 - (s.n2 : Int)) / 2).toNat) :
    cropPair k s ks = (centerCrop k cr, s) := by
  simp only [cropPair]
  rw [if_pos (by omega), ← hcr, slice_opt]

/-- Crop-step value in the source-crop branch (`needed ≤ h`), without any
evenness assumption on the size difference. -/
theorem cropPair_le (k s : Tensor4) (ks cr : Nat)
    (hle : (k.n2 : Int) + (ks : Int) - 1 ≤ (s.n2 : Int))
    (hcr : cr = (((s.n2 : Int) - ((k.n2 : Int) + (ks : Int) - 1)) / 2).toNat) :
    cropPair k s ks = (k, centerCrop s cr) := by
  simp only [cropPair]
  rw [if_neg (by omega), ← hcr, slice_opt]

/-- If `apply_kernels` returns a tensor then all three runtime shape checks
passed: the kernel `view` element-count equality, the two `unfold` window
bounds, and the tiles `view` element-count equality. -/
theorem apply_kernels_ok_checks (k s kc sc out : Tensor4)
    (hcp : cropPair k s (isqrt k.n1) = (kc, sc))
    (h : apply_kernels k s = Except.ok out) :
    kc.n0 * kc.n1 * kc.n2 * kc.n3
        = s.n0 * 1 * kc.n2 * kc.n3 * (isqrt k.n1 * isqrt k.n1) ∧
    (isqrt k.n1 ≤ sc.n2 ∧ isqrt k.n1 ≤ sc.n3) ∧
    s.n0 * s.n1 * (sc.n2 - isqrt k.n1 + 1) * (sc.n3 - isqrt k.n1 + 1)
        * (isqrt k.n1 * isqrt k.n1)
      = s.n0 * s.n1 * kc.n2 * kc.n3 * (isqrt k.n1 * isqrt k.n1) := by
  simp only [apply_kernels, hcp] at h
  split at h
  next h1 =>
    split at h
    next h2 =>
      split at h
      next h3 => exact ⟨h1, h2, h3⟩
      next => cases h
    next => cases h
  next => cases h

/-- A source strictly smaller than the kernel window in either spatial
dimension always makes `apply_kernels` fail (the `unfold` bound cannot
hold, as cropping never enlarges the source). -/
theorem apply_kernels_small_source (k s : Tensor4)
    (hsmall : s.n2 < isqrt k.n1 ∨ s.n3 < isqrt k.n1) :
    isOkT (apply_kernels k s) = false := by
  cases hok : apply_kernels k s with
  | error e => rfl
  | ok out =>
    exfalso
    obtain ⟨_, ⟨h2a, h2b⟩, _⟩ := apply_kernels_ok_checks k s
      (cropPair k s (isqrt k.n1)).1 (cropPair k s (isqrt k.n1)).2 out rfl hok
    have hd := cropPair_snd_dims k s (isqrt k.n1)
    omega

/-- C6 (amended): the minimum valid source size is `K` per spatial
dimension, not `K + 1`: with a `1x1` kernel of depth `K*K` and a source of
spatial size exactly `K`, `apply_kernels` succeeds with a non-empty `1x1`
output; and whenever the source is smaller than `K` in either spatial
dimension, `apply_kernels` fails with a shape error.  (At size `K + 1` the
output is `2x2`, not `1x1`; see the counterexample.) -/
theorem C6_minimum_source (k s : Tensor4) (K : Nat)
    (hk1 : k.n1 = K * K) (hK : 1 ≤ K) :
    (k.n0 = s.n0 → k.n2 = 1 → k.n3 = 1 → s.n2 = K → s.n3 = K →
      ∃ out, apply_kernels k s = Except.ok out ∧
        out.n2 = 1 ∧ out.n3 = 1 ∧ out.n0 = s.n0 ∧ out.n1 = s.n1) ∧
    (s.n2 < K ∨ s.n3 < K → isOkT (apply_kernels k s) = false) := by
  constructor
  · intro hb h2 h3 hs2 hs3
    obtain ⟨out, h1, o0, o1, o2, o3, _⟩ :=
      apply_kernels_spec k s K 0 hb hk1 hK (by omega) (by omega) (by omega)
        (by omega)
    exact ⟨out, h1, by omega, by omega, o0, o1⟩
  · intro hsm
    exact apply_kernels_small_source k s (by rw [hk1, isqrt_sq]; exact hsm)

/-- Counterexample for C6 as stated: with `K = 2`, a source of spatial size
`K + 1 = 3` and a compatible `2x2` kernel, `apply_kernels` succeeds with a
`2x2` output (not `1x1`); moreover a source of size `K = 2 < K + 1` with a
`1x1` kernel also succeeds instead of raising an error. -/
theorem C6_counterexample :
    isOkT (apply_kernels (Tensor4.mk 1 4 2 2 (fun _ _ _ _ => 0))
      (Tensor4.mk 1 1 3 3 (fun _ _ _ _ => 0))) = true ∧
    okN2 (apply_kernels (Tensor4.mk 1 4 2 2 (fun _ _ _ _ => 0))
      (Tensor4.mk 1 1 3 3 (fun _ _ _ _ => 0))) = 2 ∧
    okN3 (apply_kernels (Tensor4.mk 1 4 2 2 (fun _ _ _ _ => 0))
      (Tensor4.mk 1 1 3 3 (fun _ _ _ _ => 0))) = 2 ∧
    isOkT (apply_kernels (Tensor4.mk 1 4 1 1 (fun _ _ _ _ => 0))
      (Tensor4.mk 1 1 2 2 (fun _ _ _ _ => 0))) = true := by
  decide

/-- Witness for C6 (amended): `K = 2`, `1x1` kernel of depth 4 over a `2x2`
source: success with a `1x1` output. -/
theorem C6_witness :
    ∃ out, apply_kernels (Tensor4.mk 1 4 1 1 (fun _ _ _ _ => 0))
        (Tensor4.mk 1 1 2 2 (fun _ _ _ _ => 0)) = Except.ok out ∧
      out.n2 = 1 ∧ out.n3 = 1 ∧ out.n0 = 1 ∧ out.n1 = 1 :=
  (C6_minimum_source (Tensor4.mk 1 4 1 1 (fun _ _ _ _ => 0))
    (Tensor4.mk 1 1 2 2 (fun _ _ _ _ => 0)) 2 rfl (by decide)).1
    rfl rfl rfl rfl rfl

/-- C7 (amended): in the no-kernel-crop regime, `apply_kernels` fails
whenever `bs_k * k2 ≠ bs_s * ⌊√k2⌋²` (the kernel `view` element counts
cannot agree).  In particular, with equal batch sizes it fails whenever the
kernel depth `k2` is not a perfect square, and with a perfect-square depth
it fails whenever the batch sizes disagree; but when both conditions are
violated at once the counts can coincide and a result is returned (see the
counterexample). -/
theorem C7_view_count_mismatch (k s : Tensor4)
    (hkh : 1 ≤ k.n2) (hkw : 1 ≤ k.n3)
    (hno : (k.n2 : Int) + (isqrt k.n1 : Int) - 1 ≤ (s.n2 : Int))
    (hmain : k.n0 * k.n1 ≠ s.n0 * (isqrt k.n1 * isqrt k.n1)) :
    isOkT (apply_kernels k s) = false := by
  cases hok : apply_kernels k s with
  | error e => rfl
  | ok out =>
    exfalso
    obtain ⟨c1, _, _⟩ := apply_kernels_ok_checks k s k
      (cropPair k s (isqrt k.n1)).2 out
      (Prod.ext (cropPair_fst_of_le k s (isqrt k.n1) hno) rfl) hok
    have e2 : (k.n2 * k.n3) * (k.n0 * k.n1)
        = (k.n2 * k.n3) * (s.n0 * (isqrt k.n1 * isqrt k.n1)) := by
      calc (k.n2 * k.n3) * (k.n0 * k.n1)
          = k.n0 * k.n1 * k.n2 * k.n3 := by ring
        _ = s.n0 * 1 * k.n2 * k.n3 * (isqrt k.n1 * isqrt k.n1) := c1
        _ = (k.n2 * k.n3) * (s.n0 * (isqrt k.n1 * isqrt k.n1)) := by ring
    exact hmain (Nat.eq_of_mul_eq_mul_left (Nat.mul_pos hkh hkw) e2)

/-- Counterexample for C7 as stated: kernel depth 8 is not a perfect square
and the batch sizes (1 vs 2) disagree, yet `apply_kernels` returns a
result: the two violations compensate in the element-count check
(`1 * 8 = 2 * ⌊√8⌋² = 2 * 4`). -/
theorem C7_counterexample :
    (Tensor4.mk 1 8 1 1 (fun _ _ _ _ => 0)).n1 = 8 ∧
    isqrt 8 * isqrt 8 ≠ 8 ∧
    (Tensor4.mk 1 8 1 1 (fun _ _ _ _ => 0)).n0
      ≠ (Tensor4.mk 2 1 2 2 (fun _ _ _ _ => 0)).n0 ∧
    isOkT (apply_kernels (Tensor4.mk 1 8 1 1 (fun _ _ _ _ => 0))
      (Tensor4.mk 2 1 2 2 (fun _ _ _ _ => 0))) = true := by
  decide

/-- Witness for C7 (amended): equal spatial shapes, batch 2 kernel of
perfect-square depth 4 against a batch 1 source: the element counts
disagree (`2 * 4 ≠ 1 * 4`) and the call fails. -/
theorem C7_witness :
    isOkT (apply_kernels (Tensor4.mk 2 4 1 1 (fun _ _ _ _ => 0))
      (Tensor4.mk 1 1 2 2 (fun _ _ _ _ => 0))) = false :=
  C7_view_count_mismatch (Tensor4.mk 2 4 1 1 (fun _ _ _ _ => 0))
    (Tensor4.mk 1 1 2 2 (fun _ _ _ _ => 0)) (by decide) (by decide)
    (by decide) (by decide)

/-- C9 (amended): when kernel and source are spatially square with a
perfect-square kernel depth `K*K`, a parity mismatch between
`kh + K - 1` and `h` (an odd crop amount) always makes `apply_kernels`
fail: the floored symmetric crop leaves the tile reshape element counts off
by one row and column.  With unequal spatial dimensions the counts can
coincidentally match and a misaligned result is returned (see the
counterexample). -/
theorem C9_parity_mismatch_square (k s : Tensor4) (K : Nat)
    (hk1 : k.n1 = K * K) (hK : 1 ≤ K)
    (hbs : 1 ≤ s.n0) (hci : 1 ≤ s.n1)
    (hsqk : k.n3 = k.n2) (hsqs : s.n3 = s.n2)
    (hpar : (k.n2 + K - 1) % 2 ≠ s.n2 % 2) :
    isOkT (apply_kernels k s) = false := by
  have hsq : isqrt k.n1 = K := by rw [hk1, isqrt_sq]
  rcases Nat.lt_or_ge s.n2 K with hsm | hbig
  · exact apply_kernels_small_source k s (by rw [hsq]; exact Or.inl hsm)
  cases hok : apply_kernels k s with
  | error e => rfl
  | ok out =>
    exfalso
    by_cases hgt : (s.n2 : Int) < (k.n2 : Int) + (K : Int) - 1
    · obtain ⟨_, _, c3⟩ := apply_kernels_ok_checks k s
        (centerCrop k ((((k.n2 : Int) + (K : Int) - 1 - (s.n2 : Int)) / 2).toNat))
        s out (by rw [hsq]; exact cropPair_gt k s K _ hgt rfl) hok
      have hcr2 : (centerCrop k
          ((((k.n2 : Int) + (K : Int) - 1 - (s.n2 : Int)) / 2).toNat)).n2
          = s.n2 - K + 1 + 1 := by
        simp only [centerCrop]
        omega
      have hcr3 : (centerCrop k
          ((((k.n2 : Int) + (K : Int) - 1 - (s.n2 : Int)) / 2).toNat)).n3
          = s.n2 - K + 1 + 1 := by
        simp only [centerCrop]
        rw [hsqk]
        omega
      rw [hsq, hcr2, hcr3, hsqs] at c3
      have hfac : 0 < s.n0 * s.n1 * (K * K) :=
        Nat.mul_pos (Nat.mul_pos hbs hci) (Nat.mul_pos hK hK)
      have e2 : (s.n0 * s.n1 * (K * K)) * ((s.n2 - K + 1) * (s.n2 - K + 1))
          = (s.n0 * s.n1 * (K * K))
            * ((s.n2 - K + 1 + 1) * (s.n2 - K + 1 + 1)) := by
        calc (s.n0 * s.n1 * (K * K)) * ((s.n2 - K + 1) * (s.n2 - K + 1))
            = s.n0 * s.n1 * (s.n2 - K + 1) * (s.n2 - K + 1) * (K * K) := by
              ring
          _ = s.n0 * s.n1 * (s.n2 - K + 1 + 1) * (s.n2 - K + 1 + 1)
              * (K * K) := c3
          _ = (s.n0 * s.n1 * (K * K))
              * ((s.n2 - K + 1 + 1) * (s.n2 - K + 1 + 1)) := by ring
      have e3 := Nat.eq_of_mul_eq_mul_left hfac e2
      have e4 : (s.n2 - K + 1 + 1) * (s.n2 - K + 1 + 1)
          = (s.n2 - K + 1) * (s.n2 - K + 1) + 2 * (s.n2 - K + 1) + 1 := by
        ring
      omega
    · obtain ⟨_, _, c3⟩ := apply_kernels_ok_checks k s k
        (centerCrop s
          ((((s.n2 : Int) - ((k.n2 : Int) + (K : Int) - 1)) / 2).toNat))
        out (by rw [hsq]; exact cropPair_le k s K _ (by omega) rfl) hok
      have hs2 : (centerCrop s
          ((((s.n2 : Int) - ((k.n2 : Int) + (K : Int) - 1)) / 2).toNat)).n2
          = k.n2 + K := by
        simp only [centerCrop]
        omega
      have hs3 : (centerCrop s
          ((((s.n2 : Int) - ((k.n2 : Int) + (K : Int) - 1)) / 2).toNat)).n3
          = k.n2 + K := by
        simp only [centerCrop]
        rw [hsqs]
        omega
      rw [hsq, hs2, hs3, hsqk] at c3
      have hkk : k.n2 + K - K + 1 = k.n2 + 1 := by omega
      rw [hkk] at c3
      have hfac : 0 < s.n0 * s.n1 * (K * K) :=
        Nat.mul_pos (Nat.mul_pos hbs hci) (Nat.mul_pos hK hK)
      have e2 : (s.n0 * s.n1 * (K * K)) * ((k.n2 + 1) * (k.n2 + 1))
          = (s.n0 * s.n1 * (K * K)) * (k.n2 * k.n2) := by
        calc (s.n0 * s.n1 * (K * K)) * ((k.n2 + 1) * (k.n2 + 1))
            = s.n0 * s.n1 * (k.n2 + 1) * (k.n2 + 1) * (K * K) := by ring
          _ = s.n0 * s.n1 * k.n2 * k.n2 * (K * K) := c3
          _ = (s.n0 * s.n1 * (K * K)) * (k.n2 * k.n2) := by ring
      have e3 := Nat.eq_of_mul_eq_mul_left hfac e2
      have e4 : (k.n2 + 1) * (k.n2 + 1) = k.n2 * k.n2 + 2 * k.n2 + 1 := by
        ring
      omega

/-- Counterexample for C9 as stated: kernel `(1, 1, 3, 2)` and source
`(1, 1, 2, 3)` with `K = 1` have `kh + K - 1 = 3` and `h = 2` of different
parity, yet the element counts of the tile reshape coincide
(`2 * 3 = 3 * 2`) and `apply_kernels` returns a (misaligned) result. -/
theorem C9_counterexample :
    ((Tensor4.mk 1 1 3 2 (fun _ _ _ _ => 0)).n2 + isqrt 1 - 1) % 2
        ≠ (Tensor4.mk 1 1 2 3 (fun _ _ _ _ => 0)).n2 % 2 ∧
    isOkT (apply_kernels (Tensor4.mk 1 1 3 2 (fun _ _ _ _ => 0))
      (Tensor4.mk 1 1 2 3 (fun _ _ _ _ => 0))) = true := by
  decide

/-- Witness for C9 (amended): square `2x2` kernel with `K = 1` against a
square `3x3` source (parity mismatch: `2` vs `3`) fails. -/
theorem C9_witness :
    isOkT (apply_kernels (Tensor4.mk 1 1 2 2 (fun _ _ _ _ => 0))
      (Tensor4.mk 1 1 3 3 (fun _ _ _ _ => 0))) = false :=
  C9_parity_mismatch_square (Tensor4.mk 1 1 2 2 (fun _ _ _ _ => 0))
    (Tensor4.mk 1 1 3 3 (fun _ _ _ _ => 0)) 1 rfl (by decide) (by decide)
    (by decide) rfl rfl (by decide)

end Demosaic

namespace Demosaic

/-- C3 (amended): unpacking a mosaic into the 4 phase planes (the strided
2x2 decimation at the start of `BayerKP.forward`) and immediately un-tiling
them with `BayerKP.unroll` reproduces the mosaic with each 2x2 tile
transposed: the output at `(y, x)` holds the gray mosaic value at row
`2*(y/2) + x % 2`, column `2*(x/2) + y % 2`.  In particular the round trip
is exact at the two diagonal positions of each tile (`y % 2 = x % 2`), but
swaps the two off-diagonal phases, because the unpack merges the channel as
(column offset, row offset) while `unroll` splits it as (row offset,
column offset). -/
theorem C3_unpack_unroll_transposes (m : Tensor4) (b y x : Nat) :
    (unroll (colorSamples (graySum m))).data b 0 y x
      = (graySum m).data b (2 * (y / 2) + x % 2) (2 * (x / 2) + y % 2) ∧
    (y % 2 = x % 2 →
      (unroll (colorSamples (graySum m))).data b 0 y x
        = (graySum m).data b y x) := by
  have hmain : (unroll (colorSamples (graySum m))).data b 0 y x
      = (graySum m).data b (2 * (y / 2) + x % 2) (2 * (x / 2) + y % 2) := by
    simp only [unroll, colorSamples]
    have h1 : (2 * (y % 2) + x % 2) % 2 = x % 2 := by omega
    have h2 : (2 * (y % 2) + x % 2) / 2 = y % 2 := by omega
    rw [h1, h2]
  refine ⟨hmain, fun hpar => ?_⟩
  rw [hmain]
  have hy : 2 * (y / 2) + x % 2 = y := by omega
  have hx : 2 * (x / 2) + y % 2 = x := by omega
  rw [hy, hx]

/-- Counterexample for C3 as stated: for the 2x2 mosaic with gray values
`[[0, 1], [2, 3]]`, the unpack / un-tile round trip places 2 (the value at
row 1, column 0) at position (0, 1), where the original mosaic holds 1. -/
theorem C3_counterexample :
    (unroll (colorSamples (graySum (Tensor4.mk 1 3 2 2
        (fun _ c y x => if c = 0 then (2 * y + x : ℚ) else 0))))).data 0 0 0 1
      ≠ (graySum (Tensor4.mk 1 3 2 2
        (fun _ c y x => if c = 0 then (2 * y + x : ℚ) else 0))).data 0 0 1 := by
  norm_num [unroll, colorSamples, graySum, Finset.sum_range_succ]

/-- Witness for C3 (amended): at the 2x2 mosaic with gray values
`[[0, 1], [2, 3]]`, position (0, 1) of the round trip holds the value at
(1, 0), and the tile-diagonal position (1, 1) is preserved exactly. -/
theorem C3_witness :
    ((unroll (colorSamples (graySum (Tensor4.mk 1 3 2 2
        (fun _ c y x => if c = 0 then (2 * y + x : ℚ) else 0))))).data 0 0 0 1
      = (graySum (Tensor4.mk 1 3 2 2
        (fun _ c y x => if c = 0 then (2 * y + x : ℚ) else 0))).data 0
          (2 * (0 / 2) + 1 % 2) (2 * (1 / 2) + 0 % 2)) ∧
    ((unroll (colorSamples (graySum (Tensor4.mk 1 3 2 2
        (fun _ c y x => if c = 0 then (2 * y + x : ℚ) else 0))))).data 0 0 1 1
      = (graySum (Tensor4.mk 1 3 2 2
        (fun _ c y x => if c = 0 then (2 * y + x : ℚ) else 0))).data 0 1 1) :=
  ⟨(C3_unpack_unroll_transposes (Tensor4.mk 1 3 2 2
      (fun _ c y x => if c = 0 then (2 * y + x : ℚ) else 0)) 0 0 1).1,
   (C3_unpack_unroll_transposes (Tensor4.mk 1 3 2 2
      (fun _ c y x => if c = 0 then (2 * y + x : ℚ) else 0)) 0 1 1).2 rfl⟩

/-- C10: constructing `XtransNetwork` always raises, for every choice of
depth and width: its `__init__` invokes `super(BayerNetwork, self)` but
`XtransNetwork` is not a subclass of `BayerNetwork`, so Python raises
`TypeError`; consequently `get(params)` with model `XtransNetwork` always
fails with the same error. -/
theorem C10_xtrans_init_always_fails :
    (∀ depth width : Nat,
      XtransNetwork_init depth width = Except.error PyError.typeError) ∧
    (∀ depth width : Nat,
      get (some ModelName.xtransNetworkName) depth width
        = Except.error PyError.typeError) := by
  constructor <;> exact fun depth width => rfl

/-- C8: neither `apply_kernels` nor `BayerKP.forward` (nor `unroll`, which
it calls) contains any torch operation that writes into existing tensor
storage: every operation in their traces is a view, a fresh allocation, or
a pure elementwise / reduction computation, so a caller-supplied kernel,
source or mosaic tensor holds the same values after the call as before. -/
theorem C8_no_inplace_writes :
    (applyKernelsOps ++ bayerKPForwardOps).all
      (fun op => !writesInPlace op) = true := by decide

end Demosaic

namespace Demosaic

/-- Reading channel 0 of a 4-way concatenation. -/
theorem cat4_ch0 (t0 t1 t2 t3 : Tensor4) (h : 1 ≤ t0.n1) (b i j : Nat) :
    (cat4 t0 t1 t2 t3).data b 0 i j = t0.data b 0 i j := by
  simp only [cat4]
  rw [if_pos (by omega)]

/-- Reading channel 1 of a 4-way concatenation of 1-channel tensors. -/
theorem cat4_ch1 (t0 t1 t2 t3 : Tensor4) (h0 : t0.n1 = 1) (h1 : 1 ≤ t1.n1)
    (b i j : Nat) :
    (cat4 t0 t1 t2 t3).data b 1 i j = t1.data b 0 i j := by
  simp only [cat4, h0]
  rw [if_neg (by omega), if_pos (by omega)]

/-- Reading channel 2 of a 4-way concatenation of 1-channel tensors. -/
theorem cat4_ch2 (t0 t1 t2 t3 : Tensor4) (h0 : t0.n1 = 1) (h1 : t1.n1 = 1)
    (h2 : 1 ≤ t2.n1) (b i j : Nat) :
    (cat4 t0 t1 t2 t3).data b 2 i j = t2.data b 0 i j := by
  simp only [cat4, h0, h1]
  rw [if_neg (by omega), if_neg (by omega), if_pos (by omega)]

/-- Reading channel 3 of a 4-way concatenation of 1-channel tensors. -/
theorem cat4_ch3 (t0 t1 t2 t3 : Tensor4) (h0 : t0.n1 = 1) (h1 : t1.n1 = 1)
    (h2 : t2.n1 = 1) (b i j : Nat) :
    (cat4 t0 t1 t2 t3).data b 3 i j = t3.data b 0 i j := by
  simp only [cat4, h0, h1, h2]
  rw [if_neg (by omega), if_neg (by omega), if_neg (by omega)]

/-- Reading channel 0 of a 3-way concatenation. -/
theorem cat3_ch0 (t0 t1 t2 : Tensor4) (h : 1 ≤ t0.n1) (b i j : Nat) :
    (cat3 t0 t1 t2).data b 0 i j = t0.data b 0 i j := by
  simp only [cat3]
  rw [if_pos (by omega)]

/-- Reading channel 1 of a 3-way concatenation of 1-channel tensors. -/
theorem cat3_ch1 (t0 t1 t2 : Tensor4) (h0 : t0.n1 = 1) (h1 : 1 ≤ t1.n1)
    (b i j : Nat) :
    (cat3 t0 t1 t2).data b 1 i j = t1.data b 0 i j := by
  simp only [cat3, h0]
  rw [if_neg (by omega), if_pos (by omega)]

/-- Reading channel 2 of a 3-way concatenation of 1-channel tensors. -/
theorem cat3_ch2 (t0 t1 t2 : Tensor4) (h0 : t0.n1 = 1) (h1 : t1.n1 = 1)
    (b i j : Nat) :
    (cat3 t0 t1 t2).data b 2 i j = t2.data b 0 i j := by
  simp only [cat3, h0, h1]
  rw [if_neg (by omega), if_neg (by omega)]

/-- The known red plane samples the gray mosaic at even rows, odd
columns. -/
theorem planeR_data (m : Tensor4) (b i j : Nat) :
    (planeR m).data b 0 i j = (graySum m).data b (2 * i) (2 * j + 1) := by
  simp [planeR, sliceChannels, bayerKP_planes, colorSamples]

/-- The known blue plane samples the gray mosaic at odd rows, even
columns. -/
theorem planeB_data (m : Tensor4) (b i j : Nat) :
    (planeB m).data b 0 i j = (graySum m).data b (2 * i + 1) (2 * j) := by
  simp [planeB, sliceChannels, bayerKP_planes, colorSamples]

/-- The first known green plane samples the gray mosaic at even rows, even
columns. -/
theorem planeG0_data (m : Tensor4) (b i j : Nat) :
    (planeG0 m).data b 0 i j = (graySum m).data b (2 * i) (2 * j) := by
  simp [planeG0, sliceChannels, bayerKP_planes, colorSamples]

/-- The second known green plane samples the gray mosaic at odd rows, odd
columns. -/
theorem planeG1_data (m : Tensor4) (b i j : Nat) :
    (planeG1 m).data b 0 i j = (graySum m).data b (2 * i + 1) (2 * j + 1) := by
  simp [planeG1, sliceChannels, bayerKP_planes, colorSamples]

end Demosaic

namespace Demosaic

/-- Placement of the known planes in the three tile stacks of
`BayerKP.forward`: for every valid configuration (kernel bank of depth
`10*ks²` and spatial size `(kh, kw)`, mosaic of even spatial size
`(2h, 2w)` with `h = kh + ks - 1 + 2c` and `w = kw + ks - 1 + 2c`), the
three tile stacks are produced successfully and carry the center-cropped
known planes at tile indices 1 (red), 2 (blue), 0 and 3 (greens):
reading those channels returns the gray mosaic value of the matching
phase, shifted by the crop offsets `(h-kh)/2, (w-kw)/2`. -/
theorem bayerKP_tiles_spec (bs ks kh kw c h w : Nat) (e : ℚ → ℚ)
    (kdata mdata : Nat → Nat → Nat → Nat → ℚ)
    (hks : 1 ≤ ks) (hkh : 1 ≤ kh) (hkw : 1 ≤ kw)
    (hh : h = kh + ks - 1 + 2 * c) (hw : w = kw + ks - 1 + 2 * c) :
    ∃ rt bt gt,
      bayerKP_redTile ks e (Tensor4.mk bs (10 * (ks * ks)) kh kw kdata)
          (Tensor4.mk bs 3 (2 * h) (2 * w) mdata) = Except.ok rt ∧
      bayerKP_blueTile ks e (Tensor4.mk bs (10 * (ks * ks)) kh kw kdata)
          (Tensor4.mk bs 3 (2 * h) (2 * w) mdata) = Except.ok bt ∧
      bayerKP_greenTile ks e (Tensor4.mk bs (10 * (ks * ks)) kh kw kdata)
          (Tensor4.mk bs 3 (2 * h) (2 * w) mdata) = Except.ok gt ∧
      ∀ b i j,
        rt.data b 1 i j
            = (graySum (Tensor4.mk bs 3 (2 * h) (2 * w) mdata)).data b
                (2 * (i + (h - kh) / 2)) (2 * (j + (w - kw) / 2) + 1) ∧
        bt.data b 2 i j
            = (graySum (Tensor4.mk bs 3 (2 * h) (2 * w) mdata)).data b
                (2 * (i + (h - kh) / 2) + 1) (2 * (j + (w - kw) / 2)) ∧
        gt.data b 0 i j
            = (graySum (Tensor4.mk bs 3 (2 * h) (2 * w) mdata)).data b
                (2 * (i + (h - kh) / 2)) (2 * (j + (w - kw) / 2)) ∧
        gt.data b 3 i j
            = (graySum (Tensor4.mk bs 3 (2 * h) (2 * w) mdata)).data b
                (2 * (i + (h - kh) / 2) + 1) (2 * (j + (w - kw) / 2) + 1) := by
  have hP2 : (bayerKP_planes (Tensor4.mk bs 3 (2 * h) (2 * w) mdata)).n2
      = kh + ks - 1 + 2 * c := by
    simp only [bayerKP_planes, colorSamples, graySum]
    omega
  have hP3 : (bayerKP_planes (Tensor4.mk bs 3 (2 * h) (2 * w) mdata)).n3
      = kw + ks - 1 + 2 * c := by
    simp only [bayerKP_planes, colorSamples, graySum]
    omega
  obtain ⟨r0, hr0, _, r0n1, r0n2, r0n3, _⟩ :=
    apply_kernels_spec
      (softmaxDim1 e (sliceChannels (Tensor4.mk bs (10 * (ks * ks)) kh kw kdata)
        (0 * (ks * ks)) (ks * ks)))
      (planeR (Tensor4.mk bs 3 (2 * h) (2 * w) mdata)) ks c rfl rfl hks hkh hkw
      hP2 hP3
  obtain ⟨r1, hr1, _, r1n1, r1n2, r1n3, _⟩ :=
    apply_kernels_spec
      (softmaxDim1 e (sliceChannels (Tensor4.mk bs (10 * (ks * ks)) kh kw kdata)
        (1 * (ks * ks)) (ks * ks)))
      (planeR (Tensor4.mk bs 3 (2 * h) (2 * w) mdata)) ks c rfl rfl hks hkh hkw
      hP2 hP3
  obtain ⟨r2, hr2, _, r2n1, r2n2, r2n3, _⟩ :=
    apply_kernels_spec
      (softmaxDim1 e (sliceChannels (Tensor4.mk bs (10 * (ks * ks)) kh kw kdata)
        (2 * (ks * ks)) (ks * ks)))
      (planeR (Tensor4.mk bs 3 (2 * h) (2 * w) mdata)) ks c rfl rfl hks hkh hkw
      hP2 hP3
  obtain ⟨u0, hu0, _, u0n1, u0n2, u0n3, _⟩ :=
    apply_kernels_spec
      (softmaxDim1 e (sliceChannels (Tensor4.mk bs (10 * (ks * ks)) kh kw kdata)
        ((3 + 0) * (ks * ks)) (ks * ks)))
      (planeB (Tensor4.mk bs 3 (2 * h) (2 * w) mdata)) ks c rfl rfl hks hkh hkw
      hP2 hP3
  obtain ⟨u1, hu1, _, u1n1, u1n2, u1n3, _⟩ :=
    apply_kernels_spec
      (softmaxDim1 e (sliceChannels (Tensor4.mk bs (10 * (ks * ks)) kh kw kdata)
        ((3 + 1) * (ks * ks)) (ks * ks)))
      (planeB (Tensor4.mk bs 3 (2 * h) (2 * w) mdata)) ks c rfl rfl hks hkh hkw
      hP2 hP3
  obtain ⟨u2, hu2, _, u2n1, u2n2, u2n3, _⟩ :=
    apply_kernels_spec
      (softmaxDim1 e (sliceChannels (Tensor4.mk bs (10 * (ks * ks)) kh kw kdata)
        ((3 + 2) * (ks * ks)) (ks * ks)))
      (planeB (Tensor4.mk bs 3 (2 * h) (2 * w) mdata)) ks c rfl rfl hks hkh hkw
      hP2 hP3
  obtain ⟨ga0, hga0, _, ga0n1, ga0n2, ga0n3, _⟩ :=
    apply_kernels_spec
      (sliceChannels (softmaxDim1 e
        (sliceChannels (Tensor4.mk bs (10 * (ks * ks)) kh kw kdata)
          (6 * (ks * ks) + 0 * (2 * (ks * ks))) (2 * (ks * ks)))) 0 (ks * ks))
      (planeG0 (Tensor4.mk bs 3 (2 * h) (2 * w) mdata)) ks c rfl rfl hks hkh
      hkw hP2 hP3
  obtain ⟨ga1, hga1, _, ga1n1, ga1n2, ga1n3, _⟩ :=
    apply_kernels_spec
      (sliceChannels (softmaxDim1 e
        (sliceChannels (Tensor4.mk bs (10 * (ks * ks)) kh kw kdata)
          (6 * (ks * ks) + 0 * (2 * (ks * ks))) (2 * (ks * ks)))) (ks * ks)
        (ks * ks))
      (planeG1 (Tensor4.mk bs 3 (2 * h) (2 * w) mdata)) ks c rfl rfl hks hkh
      hkw hP2 hP3
  obtain ⟨gb0, hgb0, _, gb0n1, gb0n2, gb0n3, _⟩ :=
    apply_kernels_spec
      (sliceChannels (softmaxDim1 e
        (sliceChannels (Tensor4.mk bs (10 * (ks * ks)) kh kw kdata)
          (6 * (ks * ks) + 1 * (2 * (ks * ks))) (2 * (ks * ks)))) 0 (ks * ks))
      (planeG0 (Tensor4.mk bs 3 (2 * h) (2 * w) mdata)) ks c rfl rfl hks hkh
      hkw hP2 hP3
  obtain ⟨gb1, hgb1, _, gb1n1, gb1n2, gb1n3, _⟩ :=
    apply_kernels_spec
      (sliceChannels (softmaxDim1 e
        (sliceChannels (Tensor4.mk bs (10 * (ks * ks)) kh kw kdata)
          (6 * (ks * ks) + 1 * (2 * (ks * ks))) (2 * (ks * ks)))) (ks * ks)
        (ks * ks))
      (planeG1 (Tensor4.mk bs 3 (2 * h) (2 * w) mdata)) ks c rfl rfl hks hkh
      hkw hP2 hP3
  have hg0 : bayerKP_estG ks e (Tensor4.mk bs (10 * (ks * ks)) kh kw kdata)
      (Tensor4.mk bs 3 (2 * h) (2 * w) mdata) 0 = Except.ok (addT ga0 ga1) := by
    simp only [bayerKP_estG, hga0, hga1]
    rfl
  have hg1 : bayerKP_estG ks e (Tensor4.mk bs (10 * (ks * ks)) kh kw kdata)
      (Tensor4.mk bs 3 (2 * h) (2 * w) mdata) 1 = Except.ok (addT gb0 gb1) := by
    simp only [bayerKP_estG, hgb0, hgb1]
    rfl
  have hrt : bayerKP_redTile ks e (Tensor4.mk bs (10 * (ks * ks)) kh kw kdata)
      (Tensor4.mk bs 3 (2 * h) (2 * w) mdata)
      = Except.ok (cat4 r0
          (crop_like (planeR (Tensor4.mk bs 3 (2 * h) (2 * w) mdata)) r0)
          r1 r2) := by
    simp only [bayerKP_redTile, bayerKP_estR, hr0, hr1, hr2]
    rfl
  have hbt : bayerKP_blueTile ks e (Tensor4.mk bs (10 * (ks * ks)) kh kw kdata)
      (Tensor4.mk bs 3 (2 * h) (2 * w) mdata)
      = Except.ok (cat4 u0 u1
          (crop_like (planeB (Tensor4.mk bs 3 (2 * h) (2 * w) mdata)) u0)
          u2) := by
    simp only [bayerKP_blueTile, bayerKP_estB, hu0, hu1, hu2]
    rfl
  have hgt : bayerKP_greenTile ks e
      (Tensor4.mk bs (10 * (ks * ks)) kh kw kdata)
      (Tensor4.mk bs 3 (2 * h) (2 * w) mdata)
      = Except.ok (cat4
          (crop_like (planeG0 (Tensor4.mk bs 3 (2 * h) (2 * w) mdata))
            (addT ga0 ga1))
          (addT ga0 ga1) (addT gb0 gb1)
          (crop_like (planeG1 (Tensor4.mk bs 3 (2 * h) (2 * w) mdata))
            (addT ga0 ga1))) := by
    simp only [bayerKP_greenTile, hg0, hg1]
    rfl
  have hoffh : ∀ pn ref : Nat,
      pn = (bayerKP_planes (Tensor4.mk bs 3 (2 * h) (2 * w) mdata)).n2 →
      ref = kh → (pn - ref) / 2 = (h - kh) / 2 := by
    intro pn ref hpn href
    subst hpn
    subst href
    rw [hP2]
    omega
  have hoffw : ∀ pn ref : Nat,
      pn = (bayerKP_planes (Tensor4.mk bs 3 (2 * h) (2 * w) mdata)).n3 →
      ref = kw → (pn - ref) / 2 = (w - kw) / 2 := by
    intro pn ref hpn href
    subst hpn
    subst href
    rw [hP3]
    omega
  refine ⟨_, _, _, hrt, hbt, hgt, ?_⟩
  intro b i j
  refine ⟨?_, ?_, ?_, ?_⟩
  · rw [cat4_ch1 r0
      (crop_like (planeR (Tensor4.mk bs 3 (2 * h) (2 * w) mdata)) r0) r1 r2
      r0n1 (Nat.le_refl 1) b i j]
    simp only [crop_like]
    rw [hoffh (planeR (Tensor4.mk bs 3 (2 * h) (2 * w) mdata)).n2 r0.n2
        rfl r0n2,
      hoffw (planeR (Tensor4.mk bs 3 (2 * h) (2 * w) mdata)).n3 r0.n3
        rfl r0n3,
      planeR_data]
  · rw [cat4_ch2 u0 u1
      (crop_like (planeB (Tensor4.mk bs 3 (2 * h) (2 * w) mdata)) u0) u2
      u0n1 u1n1 (Nat.le_refl 1) b i j]
    simp only [crop_like]
    rw [hoffh (planeB (Tensor4.mk bs 3 (2 * h) (2 * w) mdata)).n2 u0.n2
        rfl u0n2,
      hoffw (planeB (Tensor4.mk bs 3 (2 * h) (2 * w) mdata)).n3 u0.n3
        rfl u0n3,
      planeB_data]
  · rw [cat4_ch0
      (crop_like (planeG0 (Tensor4.mk bs 3 (2 * h) (2 * w) mdata))
        (addT ga0 ga1))
      (addT ga0 ga1) (addT gb0 gb1)
      (crop_like (planeG1 (Tensor4.mk bs 3 (2 * h) (2 * w) mdata))
        (addT ga0 ga1))
      (Nat.le_refl 1) b i j]
    simp only [crop_like, addT]
    rw [hoffh (planeG0 (Tensor4.mk bs 3 (2 * h) (2 * w) mdata)).n2 ga0.n2
        rfl ga0n2,
      hoffw (planeG0 (Tensor4.mk bs 3 (2 * h) (2 * w) mdata)).n3 ga0.n3
        rfl ga0n3,
      planeG0_data]
  · rw [cat4_ch3
      (crop_like (planeG0 (Tensor4.mk bs 3 (2 * h) (2 * w) mdata))
        (addT ga0 ga1))
      (addT ga0 ga1) (addT gb0 gb1)
      (crop_like (planeG1 (Tensor4.mk bs 3 (2 * h) (2 * w) mdata))
        (addT ga0 ga1))
      rfl ga0n1 gb0n1 b i j]
    simp only [crop_like, addT]
    rw [hoffh (planeG1 (Tensor4.mk bs 3 (2 * h) (2 * w) mdata)).n2 ga0.n2
        rfl ga0n2,
      hoffw (planeG1 (Tensor4.mk bs 3 (2 * h) (2 * w) mdata)).n3 ga0.n3
        rfl ga0n3,
      planeG1_data]

end Demosaic

namespace Demosaic

/-- C4 (amended): in `BayerKP.forward`'s reassembly the known planes sit at
these fixed positions within each channel's 2x2 tile: the known red plane
at tile offset 1, the known blue plane at tile offset 2 (not 0: the reorder
`[blues[1], blues[2], blues[0], blues[3]]` places it third), and the two
known green planes at tile offsets 0 and 3.  Reading those tile channels
returns exactly the center-cropped known-phase mosaic values. -/
theorem C4_known_plane_tile_offsets (bs ks kh kw c h w : Nat) (e : ℚ → ℚ)
    (kdata mdata : Nat → Nat → Nat → Nat → ℚ)
    (hks : 1 ≤ ks) (hkh : 1 ≤ kh) (hkw : 1 ≤ kw)
    (hh : h = kh + ks - 1 + 2 * c) (hw : w = kw + ks - 1 + 2 * c) :
    ∃ rt bt gt,
      bayerKP_redTile ks e (Tensor4.mk bs (10 * (ks * ks)) kh kw kdata)
          (Tensor4.mk bs 3 (2 * h) (2 * w) mdata) = Except.ok rt ∧
      bayerKP_blueTile ks e (Tensor4.mk bs (10 * (ks * ks)) kh kw kdata)
          (Tensor4.mk bs 3 (2 * h) (2 * w) mdata) = Except.ok bt ∧
      bayerKP_greenTile ks e (Tensor4.mk bs (10 * (ks * ks)) kh kw kdata)
          (Tensor4.mk bs 3 (2 * h) (2 * w) mdata) = Except.ok gt ∧
      ∀ b i j,
        rt.data b 1 i j
            = (graySum (Tensor4.mk bs 3 (2 * h) (2 * w) mdata)).data b
                (2 * (i + (h - kh) / 2)) (2 * (j + (w - kw) / 2) + 1) ∧
        bt.data b 2 i j
            = (graySum (Tensor4.mk bs 3 (2 * h) (2 * w) mdata)).data b
                (2 * (i + (h - kh) / 2) + 1) (2 * (j + (w - kw) / 2)) ∧
        gt.data b 0 i j
            = (graySum (Tensor4.mk bs 3 (2 * h) (2 * w) mdata)).data b
                (2 * (i + (h - kh) / 2)) (2 * (j + (w - kw) / 2)) ∧
        gt.data b 3 i j
            = (graySum (Tensor4.mk bs 3 (2 * h) (2 * w) mdata)).data b
                (2 * (i + (h - kh) / 2) + 1) (2 * (j + (w - kw) / 2) + 1) :=
  bayerKP_tiles_spec bs ks kh kw c h w e kdata mdata hks hkh hkw hh hw

/-- Witness for C4 (amended): `ks = 1` identity configuration on the 2x2
mosaic with gray values `3 * (2y + x)`: all four tile stacks succeed and
the known channels return the matching-phase mosaic values. -/
theorem C4_witness :
    ∃ rt bt gt,
      bayerKP_redTile 1 (fun _ => 1) (Tensor4.mk 1 10 1 1 (fun _ _ _ _ => 0))
          (Tensor4.mk 1 3 2 2 (fun _ _ y x => (2 * y + x : ℚ)))
        = Except.ok rt ∧
      bayerKP_blueTile 1 (fun _ => 1) (Tensor4.mk 1 10 1 1 (fun _ _ _ _ => 0))
          (Tensor4.mk 1 3 2 2 (fun _ _ y x => (2 * y + x : ℚ)))
        = Except.ok bt ∧
      bayerKP_greenTile 1 (fun _ => 1)
          (Tensor4.mk 1 10 1 1 (fun _ _ _ _ => 0))
          (Tensor4.mk 1 3 2 2 (fun _ _ y x => (2 * y + x : ℚ)))
        = Except.ok gt ∧
      ∀ b i j,
        rt.data b 1 i j
            = (graySum (Tensor4.mk 1 3 2 2
                (fun _ _ y x => (2 * y + x : ℚ)))).data b (2 * i) (2 * j + 1) ∧
        bt.data b 2 i j
            = (graySum (Tensor4.mk 1 3 2 2
                (fun _ _ y x => (2 * y + x : ℚ)))).data b (2 * i + 1) (2 * j) ∧
        gt.data b 0 i j
            = (graySum (Tensor4.mk 1 3 2 2
                (fun _ _ y x => (2 * y + x : ℚ)))).data b (2 * i) (2 * j) ∧
        gt.data b 3 i j
            = (graySum (Tensor4.mk 1 3 2 2
                (fun _ _ y x => (2 * y + x : ℚ)))).data b (2 * i + 1)
                (2 * j + 1) :=
  C4_known_plane_tile_offsets 1 1 1 1 0 1 1 (fun _ => 1) (fun _ _ _ _ => 0)
    (fun _ _ y x => (2 * y + x : ℚ)) (by decide) (by decide) (by decide)
    (by decide) (by decide)

/-- C5: known-sample preservation in `BayerKP.forward`.  For every valid
configuration, the forward pass succeeds and at every output pixel whose
position matches the phase of an originally known sample, the assembled
output's corresponding color channel equals the center-cropped gray mosaic
value at that position exactly: channel 0 (red) at even rows / odd columns,
channel 2 (blue) at odd rows / even columns, and channel 1 (green) at both
diagonal phases, each shifted by the crop offsets `(h-kh)/2, (w-kw)/2`. -/
theorem C5_known_samples_preserved (bs ks kh kw c h w : Nat) (e : ℚ → ℚ)
    (kdata mdata : Nat → Nat → Nat → Nat → ℚ)
    (hks : 1 ≤ ks) (hkh : 1 ≤ kh) (hkw : 1 ≤ kw)
    (hh : h = kh + ks - 1 + 2 * c) (hw : w = kw + ks - 1 + 2 * c) :
    ∃ out, bayerKP_forward ks e (Tensor4.mk bs (10 * (ks * ks)) kh kw kdata)
        (Tensor4.mk bs 3 (2 * h) (2 * w) mdata) = Except.ok out ∧
      ∀ b i j,
        out.data b 0 (2 * i) (2 * j + 1)
            = (graySum (Tensor4.mk bs 3 (2 * h) (2 * w) mdata)).data b
                (2 * (i + (h - kh) / 2)) (2 * (j + (w - kw) / 2) + 1) ∧
        out.data b 2 (2 * i + 1) (2 * j)
            = (graySum (Tensor4.mk bs 3 (2 * h) (2 * w) mdata)).data b
                (2 * (i + (h - kh) / 2) + 1) (2 * (j + (w - kw) / 2)) ∧
        out.data b 1 (2 * i) (2 * j)
            = (graySum (Tensor4.mk bs 3 (2 * h) (2 * w) mdata)).data b
                (2 * (i + (h - kh) / 2)) (2 * (j + (w - kw) / 2)) ∧
        out.data b 1 (2 * i + 1) (2 * j + 1)
            = (graySum (Tensor4.mk bs 3 (2 * h) (2 * w) mdata)).data b
                (2 * (i + (h - kh) / 2) + 1) (2 * (j + (w - kw) / 2) + 1) := by
  obtain ⟨rt, bt, gt, hrt, hbt, hgt, hdata⟩ :=
    bayerKP_tiles_spec bs ks kh kw c h w e kdata mdata hks hkh hkw hh hw
  have hfw : bayerKP_forward ks e (Tensor4.mk bs (10 * (ks * ks)) kh kw kdata)
      (Tensor4.mk bs 3 (2 * h) (2 * w) mdata)
      = Except.ok (cat3 (unroll rt) (unroll gt) (unroll bt)) := by
    simp only [bayerKP_forward, hrt, hbt, hgt]
    rfl
  refine ⟨_, hfw, ?_⟩
  intro b i j
  obtain ⟨hd1, hd2, hd3, hd4⟩ := hdata b i j
  refine ⟨?_, ?_, ?_, ?_⟩
  · rw [cat3_ch0 (unroll rt) (unroll gt) (unroll bt) (Nat.le_refl 1) b
      (2 * i) (2 * j + 1)]
    simp only [unroll]
    have e1 : 2 * ((2 * i) % 2) + (2 * j + 1) % 2 = 1 := by omega
    have e2 : (2 * i) / 2 = i := by omega
    have e3 : (2 * j + 1) / 2 = j := by omega
    rw [e1, e2, e3]
    exact hd1
  · rw [cat3_ch2 (unroll rt) (unroll gt) (unroll bt) rfl rfl b
      (2 * i + 1) (2 * j)]
    simp only [unroll]
    have e1 : 2 * ((2 * i + 1) % 2) + (2 * j) % 2 = 2 := by omega
    have e2 : (2 * i + 1) / 2 = i := by omega
    have e3 : (2 * j) / 2 = j := by omega
    rw [e1, e2, e3]
    exact hd2
  · rw [cat3_ch1 (unroll rt) (unroll gt) (unroll bt) rfl (Nat.le_refl 1) b
      (2 * i) (2 * j)]
    simp only [unroll]
    have e1 : 2 * ((2 * i) % 2) + (2 * j) % 2 = 0 := by omega
    have e2 : (2 * i) / 2 = i := by omega
    have e3 : (2 * j) / 2 = j := by omega
    rw [e1, e2, e3]
    exact hd3
  · rw [cat3_ch1 (unroll rt) (unroll gt) (unroll bt) rfl (Nat.le_refl 1) b
      (2 * i + 1) (2 * j + 1)]
    simp only [unroll]
    have e1 : 2 * ((2 * i + 1) % 2) + (2 * j + 1) % 2 = 3 := by omega
    have e2 : (2 * i + 1) / 2 = i := by omega
    have e3 : (2 * j + 1) / 2 = j := by omega
    rw [e1, e2, e3]
    exact hd4

/-- Witness for C5: `ks = 1` identity configuration on the 2x2 mosaic with
gray values `3 * (2y + x)`: the forward pass succeeds and all four known
phases read back the mosaic values. -/
theorem C5_witness :
    ∃ out, bayerKP_forward 1 (fun _ => 1)
        (Tensor4.mk 1 10 1 1 (fun _ _ _ _ => 0))
        (Tensor4.mk 1 3 2 2 (fun _ _ y x => (2 * y + x : ℚ)))
      = Except.ok out ∧
      ∀ b i j,
        out.data b 0 (2 * i) (2 * j + 1)
            = (graySum (Tensor4.mk 1 3 2 2
                (fun _ _ y x => (2 * y + x : ℚ)))).data b (2 * i) (2 * j + 1) ∧
        out.data b 2 (2 * i + 1) (2 * j)
            = (graySum (Tensor4.mk 1 3 2 2
                (fun _ _ y x => (2 * y + x : ℚ)))).data b (2 * i + 1) (2 * j) ∧
        out.data b 1 (2 * i) (2 * j)
            = (graySum (Tensor4.mk 1 3 2 2
                (fun _ _ y x => (2 * y + x : ℚ)))).data b (2 * i) (2 * j) ∧
        out.data b 1 (2 * i + 1) (2 * j + 1)
            = (graySum (Tensor4.mk 1 3 2 2
                (fun _ _ y x => (2 * y + x : ℚ)))).data b (2 * i + 1)
                (2 * j + 1) :=
  C5_known_samples_preserved 1 1 1 1 0 1 1 (fun _ => 1) (fun _ _ _ _ => 0)
    (fun _ _ y x => (2 * y + x : ℚ)) (by decide) (by decide) (by decide)
    (by decide) (by decide)

end Demosaic

namespace Demosaic

/-- Counterexample for C4 as stated: the known blue plane is not placed at
tile offset 0.  With `ks = 3`, uniform kernels and a 6x6 mosaic that is 9
at position (1, 0) and 0 elsewhere, the blue tile stack succeeds, its
channel 0 holds the first softmax estimate (value 1, the uniform average of
the known blue plane), while the center-cropped known blue plane at that
position is 0. -/
theorem C4_counterexample :
    ∃ bt, bayerKP_blueTile 3 (fun _ => 1)
        (Tensor4.mk 1 90 1 1 (fun _ _ _ _ => 0))
        (Tensor4.mk 1 3 6 6
          (fun _ c2 y x => if c2 = 0 ∧ y = 1 ∧ x = 0 then 9 else 0))
      = Except.ok bt ∧
      bt.data 0 0 0 0
        ≠ (crop_like (planeB (Tensor4.mk 1 3 6 6
            (fun _ c2 y x => if c2 = 0 ∧ y = 1 ∧ x = 0 then 9 else 0)))
            bt).data 0 0 0 0 := by
  obtain ⟨e0, he0, _, e0n1, e0n2, e0n3, hdat⟩ :=
    apply_kernels_spec
      (softmaxDim1 (fun _ => 1)
        (sliceChannels (Tensor4.mk 1 90 1 1 (fun _ _ _ _ => 0))
          ((3 + 0) * (3 * 3)) (3 * 3)))
      (planeB (Tensor4.mk 1 3 6 6
        (fun _ c2 y x => if c2 = 0 ∧ y = 1 ∧ x = 0 then 9 else 0))) 3 0
      rfl rfl (by decide) (by decide) (by decide) rfl rfl
  obtain ⟨e1, he1, _, _, _, _, _⟩ :=
    apply_kernels_spec
      (softmaxDim1 (fun _ => 1)
        (sliceChannels (Tensor4.mk 1 90 1 1 (fun _ _ _ _ => 0))
          ((3 + 1) * (3 * 3)) (3 * 3)))
      (planeB (Tensor4.mk 1 3 6 6
        (fun _ c2 y x => if c2 = 0 ∧ y = 1 ∧ x = 0 then 9 else 0))) 3 0
      rfl rfl (by decide) (by decide) (by decide) rfl rfl
  obtain ⟨e2, he2, _, _, _, _, _⟩ :=
    apply_kernels_spec
      (softmaxDim1 (fun _ => 1)
        (sliceChannels (Tensor4.mk 1 90 1 1 (fun _ _ _ _ => 0))
          ((3 + 2) * (3 * 3)) (3 * 3)))
      (planeB (Tensor4.mk 1 3 6 6
        (fun _ c2 y x => if c2 = 0 ∧ y = 1 ∧ x = 0 then 9 else 0))) 3 0
      rfl rfl (by decide) (by decide) (by decide) rfl rfl
  have hbt : bayerKP_blueTile 3 (fun _ => 1)
      (Tensor4.mk 1 90 1 1 (fun _ _ _ _ => 0))
      (Tensor4.mk 1 3 6 6
        (fun _ c2 y x => if c2 = 0 ∧ y = 1 ∧ x = 0 then 9 else 0))
      = Except.ok (cat4 e0 e1
          (crop_like (planeB (Tensor4.mk 1 3 6 6
            (fun _ c2 y x => if c2 = 0 ∧ y = 1 ∧ x = 0 then 9 else 0))) e0)
          e2) := by
    simp only [bayerKP_blueTile, bayerKP_estB, he0, he1, he2]
    rfl
  refine ⟨_, hbt, ?_⟩
  rw [cat4_ch0 e0 e1
    (crop_like (planeB (Tensor4.mk 1 3 6 6
      (fun _ c2 y x => if c2 = 0 ∧ y = 1 ∧ x = 0 then 9 else 0))) e0) e2
    (Nat.le_of_eq e0n1.symm) 0 0 0]
  rw [hdat 0 0 0 0 (by decide) (by decide) (by decide)]
  have hrefn2 : e0.n2 = 1 := e0n2
  have hrefn3 : e0.n3 = 1 := e0n3
  simp only [crop_like, cat4]
  rw [hrefn2, hrefn3]
  simp only [softmaxDim1, sliceChannels, planeB, bayerKP_planes,
    colorSamples, graySum, Finset.sum_range_succ, Finset.sum_range_zero]
  norm_num

end Demosaic
